import Mathlib

/-!
Verification development for the memcached std handler
(handlers/memcached/std/handler.go).

The handler speaks the binary memcached protocol over one buffered
connection.  We embed it shallowly:

* the write side of the connection is a byte buffer `wbuf` (the bufio
  writer) plus the list `sent` of bytes already flushed to the wire;
* the read side is a list of framed stream items: decoded response
  headers followed by their body bytes (the external `binprot` codec is
  modelled from the spec, which treats it as a collaborator that decodes
  a header off the stream);
* the header pool is an explicit list of recycled header values;
* the batched get pipeline is embedded as a function from the request
  and a per-key script of server outcomes to the list of channel events
  the background goroutine produces (sends on the data channel, sends on
  the error channel, channel closes, and an out-of-bounds panic).
-/

namespace Rend

/-- Errors visible to the handler: the classified protocol outcomes
produced by the codec's `DecodeError`, plus transport failures arising
from flush, header read, and body discard. -/
inductive Err where
  | keyNotFound
  | keyExists
  | generic (status : Nat)
  | ioErrFlush
  | ioErrRead
  | ioErrDiscard
deriving DecidableEq, Repr

/-- Modelled from the spec: the decoded wire response header exposed by
the external codec (`binprot.ResponseHeader`), with status code, body
length accounting fields, opaque and CAS. -/
structure ResponseHeader where
  status : Nat
  keyLength : Nat
  extraLength : Nat
  totalBodyLength : Nat
  opaqueToken : Nat
  cas : Nat
deriving DecidableEq, Repr

/-- The zero header value `binprot.ResponseHeader{}` returned when the
header read itself fails. -/
def emptyHeader : ResponseHeader :=
  { status := 0, keyLength := 0, extraLength := 0, totalBodyLength := 0
    opaqueToken := 0, cas := 0 }

/-- Modelled from the spec: §4.5 header classification
(`binprot.DecodeError`), a pure total function from the status code to
success (`none`), key-not-found, key-exists, or a generic failure
carrying the raw status. -/
def decodeError (h : ResponseHeader) : Option Err :=
  if h.status = 0 then none
  else if h.status = 1 then some Err.keyNotFound
  else if h.status = 2 then some Err.keyExists
  else some (Err.generic h.status)

/-- One item on the read side of the connection: a framed response
header or a raw body byte. -/
inductive StreamItem where
  | hdr (h : ResponseHeader)
  | byte (b : Nat)
deriving DecidableEq, Repr

/-- State of one handler (`Handler` plus its `bufio.ReadWriter` and the
codec's header pool): flushed bytes, buffered unflushed bytes, whether
the underlying writer is broken (so that `Flush` fails), the incoming
read stream, the header pool, and the connection's closed flag with the
result its `Close` reports. -/
structure HandlerState where
  sent : List Nat
  wbuf : List Nat
  writeBroken : Bool
  istream : List StreamItem
  pool : List ResponseHeader
  connClosed : Bool
  connCloseErr : Option Err
deriving DecidableEq, Repr

/-- A buffered write (`bufio.Writer.Write`): bytes accumulate in the
write buffer; errors surface only at flush. -/
def bufWrite (bs : List Nat) (st : HandlerState) : HandlerState :=
  { st with wbuf := st.wbuf ++ bs }

/-- `Flush`: moves the buffered bytes onto the wire, failing when the
underlying writer is broken. -/
def flush (st : HandlerState) : Option Err × HandlerState :=
  if st.writeBroken then (some Err.ioErrFlush, st)
  else (none, { st with sent := st.sent ++ st.wbuf, wbuf := [] })

/-- Modelled from the spec: `binprot.PutResponseHeader` releases a
header value back to the bounded pool. -/
def putResponseHeader (h : ResponseHeader) (st : HandlerState) : HandlerState :=
  { st with pool := h :: st.pool }

/-- `bufio.Reader.Discard n`: consumes `n` items from the read side,
failing with an I/O error when the stream is exhausted first. -/
def discard (n : Nat) (st : HandlerState) : Option Err × HandlerState :=
  if n ≤ st.istream.length then (none, { st with istream := st.istream.drop n })
  else (some Err.ioErrDiscard, { st with istream := [] })

/-- `readResponseHeader` from handler.go: read a header off the stream
via the codec (an I/O failure yields the zero header and the error),
classify its status, release the header to the pool, and return the
header value together with the classification. -/
def readResponseHeader (st : HandlerState) :
    (ResponseHeader × Option Err) × HandlerState :=
  match st.istream with
  | StreamItem.hdr h :: rest =>
    let st1 : HandlerState := { st with istream := rest }
    match decodeError h with
    | some e => ((h, some e), putResponseHeader h st1)
    | none => ((h, none), putResponseHeader h st1)
  | _ => ((emptyHeader, some Err.ioErrRead), st)

/-- `handleSetCommon` from handler.go: write the payload, flush, read
and classify the response header; on a classified error discard the
declared body bytes (propagating a discard failure instead) and return
the classified error; on success return no error. -/
def handleSetCommon (dta : List Nat) (st0 : HandlerState) :
    Option Err × HandlerState :=
  let st := bufWrite dta st0
  match flush st with
  | (some e, st1) => (some e, st1)
  | (none, st1) =>
    match readResponseHeader st1 with
    | ((resHeader, some err), st2) =>
      match discard resHeader.totalBodyLength st2 with
      | (some ioerr, st3) => (some ioerr, st3)
      | (none, st3) => (some err, st3)
    | ((_, none), st2) => (none, st2)

/-- Variant of `readResponseHeader` whose pool contents are overwritten
with arbitrary junk immediately after the release call.  Used to state
that nothing downstream reads the released header out of the pool. -/
def readResponseHeaderScrambled (junk : List ResponseHeader)
    (st : HandlerState) : (ResponseHeader × Option Err) × HandlerState :=
  match st.istream with
  | StreamItem.hdr h :: rest =>
    let st1 : HandlerState := { st with istream := rest }
    match decodeError h with
    | some e => ((h, some e), { putResponseHeader h st1 with pool := junk })
    | none => ((h, none), { putResponseHeader h st1 with pool := junk })
  | _ => ((emptyHeader, some Err.ioErrRead), st)

/-- `handleSetCommon` run against the scrambled header pool. -/
def handleSetCommonScrambled (junk : List ResponseHeader) (dta : List Nat)
    (st0 : HandlerState) : Option Err × HandlerState :=
  let st := bufWrite dta st0
  match flush st with
  | (some e, st1) => (some e, st1)
  | (none, st1) =>
    match readResponseHeaderScrambled junk st1 with
    | ((resHeader, some err), st2) =>
      match discard resHeader.totalBodyLength st2 with
      | (some ioerr, st3) => (some ioerr, st3)
      | (none, st3) => (some err, st3)
    | ((_, none), st2) => (none, st2)

/-- `common.SetRequest`: key, flags, expiration, payload. -/
structure SetRequest where
  key : List Nat
  flags : Nat
  exptime : Nat
  data : List Nat
deriving DecidableEq, Repr

/-- Modelled from the spec: the external codec's command encoder
`encode(commandKind, key, flags, expiration, payloadLength, opaque)`,
producing the wire bytes of one command header. -/
def encodeCmd (opcode : Nat) (key : List Nat) (flags exptime bodyLen opq : Nat) :
    List Nat :=
  opcode :: flags :: exptime :: bodyLen :: opq :: key.length :: key

/-- Binary-protocol opcode for set. -/
def opSet : Nat := 1
/-- Binary-protocol opcode for add. -/
def opAdd : Nat := 2
/-- Binary-protocol opcode for replace. -/
def opReplace : Nat := 3
/-- Binary-protocol opcode for append. -/
def opAppend : Nat := 14
/-- Binary-protocol opcode for prepend. -/
def opPrepend : Nat := 15

/-- `Set` from handler.go: write the set command header (payload length
taken modulo 2^32 as by the Go `uint32` conversion), then run the
common mutation path on the payload. -/
def Set (cmd : SetRequest) (st : HandlerState) : Option Err × HandlerState :=
  handleSetCommon cmd.data
    (bufWrite (encodeCmd opSet cmd.key cmd.flags cmd.exptime (cmd.data.length % 2 ^ 32) 0) st)

/-- `Add` from handler.go. -/
def Add (cmd : SetRequest) (st : HandlerState) : Option Err × HandlerState :=
  handleSetCommon cmd.data
    (bufWrite (encodeCmd opAdd cmd.key cmd.flags cmd.exptime (cmd.data.length % 2 ^ 32) 0) st)

/-- `Replace` from handler.go. -/
def Replace (cmd : SetRequest) (st : HandlerState) : Option Err × HandlerState :=
  handleSetCommon cmd.data
    (bufWrite (encodeCmd opReplace cmd.key cmd.flags cmd.exptime (cmd.data.length % 2 ^ 32) 0) st)

/-- `Append` from handler.go. -/
def Append (cmd : SetRequest) (st : HandlerState) : Option Err × HandlerState :=
  handleSetCommon cmd.data
    (bufWrite (encodeCmd opAppend cmd.key cmd.flags cmd.exptime (cmd.data.length % 2 ^ 32) 0) st)

/-- `Prepend` from handler.go. -/
def Prepend (cmd : SetRequest) (st : HandlerState) : Option Err × HandlerState :=
  handleSetCommon cmd.data
    (bufWrite (encodeCmd opPrepend cmd.key cmd.flags cmd.exptime (cmd.data.length % 2 ^ 32) 0) st)

/-- `Close` from handler.go: `return h.conn.Close()` — closes only the
underlying connection, reporting the connection's own close result, and
touches nothing else (in particular it does not flush `wbuf`). -/
def close (st : HandlerState) : Option Err × HandlerState :=
  (st.connCloseErr, { st with connClosed := true })

/-- `common.GetRequest`: ordered keys with parallel quiet flags and
opaque tokens. -/
structure GetRequest where
  keys : List (List Nat)
  quiet : List Bool
  opaques : List Nat
deriving DecidableEq, Repr

/-- `common.GetResponse`. -/
structure GetResponse where
  miss : Bool
  quiet : Bool
  opq : Nat
  flags : Nat
  key : List Nat
  data : Option (List Nat)
deriving DecidableEq, Repr

/-- `common.GetEResponse`: a `GetResponse` that additionally carries the
expiration time recovered from the server. -/
structure GetEResponse where
  miss : Bool
  quiet : Bool
  opq : Nat
  flags : Nat
  exptime : Nat
  key : List Nat
  data : Option (List Nat)
deriving DecidableEq, Repr

/-- `common.GATRequest`: key, new expiration, opaque token (no quiet
flag). -/
structure GATRequest where
  key : List Nat
  exptime : Nat
  opq : Nat
deriving DecidableEq, Repr

/-- The server-side outcome of one single-key round trip: the command
write fails, the key is found (with payload, flags and expiration), the
key is absent, or the read path fails with some other classified or
transport error. -/
inductive GetOutcome where
  | writeErr (e : Err)
  | hit (data : List Nat) (flags : Nat) (exp : Nat)
  | miss
  | readErr (e : Err)
deriving DecidableEq, Repr

/-- Modelled from the spec: the single-key read path `getLocal` (§4.2)
at outcome granularity — flush the written command, read and classify
one response; a miss yields no payload and the key-not-found error, any
other error is propagated, and a hit yields the declared payload, flags
and (for the with-expiration variant) expiration time. -/
def getLocal : GetOutcome → Option (List Nat) × Nat × Nat × Option Err
  | GetOutcome.hit d f x => (some d, f, x, none)
  | GetOutcome.miss => (none, 0, 0, some Err.keyNotFound)
  | GetOutcome.readErr e => (none, 0, 0, some e)
  | GetOutcome.writeErr _ => (none, 0, 0, none)

/-- One observable event of a batch pipeline goroutine: a send on the
data channel, a send on the error channel, closing either channel, or a
runtime panic from an out-of-bounds slice index. -/
inductive GEvent (ρ : Type) where
  | item (r : ρ)
  | err (e : Err)
  | closeData
  | closeErr
  | oob
deriving DecidableEq, Repr

/-- The loop body of `realHandleGet` from handler.go, iterating the
remaining keys at position `idx` against the remaining script of
server outcomes.  The deferred closes run in LIFO order (data channel
first, then error channel), both on normal return, on the error-path
return, and during the unwind of an out-of-bounds panic — the panic is
recorded before the closes since the faulting index occurs first.  An
empty script while keys remain means the server never answers: the
goroutine blocks forever and emits nothing further. -/
def getLoopAux (cmd : GetRequest) : Nat → List (List Nat) → List GetOutcome →
    List (GEvent GetResponse)
  | _, [], _ => [GEvent.closeData, GEvent.closeErr]
  | _, _ :: _, [] => []
  | idx, key :: keys, o :: script =>
    match o with
    | GetOutcome.writeErr e => [GEvent.err e, GEvent.closeData, GEvent.closeErr]
    | _ =>
      match getLocal o with
      | (_, flags, _, some e) =>
        if e = Err.keyNotFound then
          match cmd.quiet.get? idx, cmd.opaques.get? idx with
          | some q, some op =>
            GEvent.item { miss := true, quiet := q, opq := op, flags := flags
                          key := key, data := none } :: getLoopAux cmd (idx + 1) keys script
          | _, _ => [GEvent.oob, GEvent.closeData, GEvent.closeErr]
        else [GEvent.err e, GEvent.closeData, GEvent.closeErr]
      | (dta, flags, _, none) =>
        match cmd.quiet.get? idx, cmd.opaques.get? idx with
        | some q, some op =>
          GEvent.item { miss := false, quiet := q, opq := op, flags := flags
                        key := key, data := dta } :: getLoopAux cmd (idx + 1) keys script
        | _, _ => [GEvent.oob, GEvent.closeData, GEvent.closeErr]

/-- `realHandleGet` from handler.go as a trace function: the events the
background goroutine produces for the request under the given per-key
script of server outcomes. -/
def realHandleGet (cmd : GetRequest) (script : List GetOutcome) :
    List (GEvent GetResponse) :=
  getLoopAux cmd 0 cmd.keys script

/-- The loop body of `realHandleGetE` from handler.go; identical to
`getLoopAux` except that responses also carry the recovered expiration
time. -/
def getELoopAux (cmd : GetRequest) : Nat → List (List Nat) → List GetOutcome →
    List (GEvent GetEResponse)
  | _, [], _ => [GEvent.closeData, GEvent.closeErr]
  | _, _ :: _, [] => []
  | idx, key :: keys, o :: script =>
    match o with
    | GetOutcome.writeErr e => [GEvent.err e, GEvent.closeData, GEvent.closeErr]
    | _ =>
      match getLocal o with
      | (_, flags, exp, some e) =>
        if e = Err.keyNotFound then
          match cmd.quiet.get? idx, cmd.opaques.get? idx with
          | some q, some op =>
            GEvent.item { miss := true, quiet := q, opq := op, flags := flags
                          exptime := exp, key := key, data := none } ::
              getELoopAux cmd (idx + 1) keys script
          | _, _ => [GEvent.oob, GEvent.closeData, GEvent.closeErr]
        else [GEvent.err e, GEvent.closeData, GEvent.closeErr]
      | (dta, flags, exp, none) =>
        match cmd.quiet.get? idx, cmd.opaques.get? idx with
        | some q, some op =>
          GEvent.item { miss := false, quiet := q, opq := op, flags := flags
                        exptime := exp, key := key, data := dta } ::
            getELoopAux cmd (idx + 1) keys script
        | _, _ => [GEvent.oob, GEvent.closeData, GEvent.closeErr]

/-- `realHandleGetE` from handler.go as a trace function. -/
def realHandleGetE (cmd : GetRequest) (script : List GetOutcome) :
    List (GEvent GetEResponse) :=
  getELoopAux cmd 0 cmd.keys script

/-- The zero value `common.GetResponse{}` returned by `GAT` alongside a
propagated error. -/
def zeroGetResponse : GetResponse :=
  { miss := false, quiet := false, opq := 0, flags := 0, key := [], data := none }

/-- `GAT` from handler.go: write the get-and-touch command, run the
single-key read path, and return a miss response (quiet false, opaque
preserved, nil payload, no error) on key-not-found, the populated
response on a hit, and the zero response with the error otherwise. -/
def GAT (cmd : GATRequest) (o : GetOutcome) : GetResponse × Option Err :=
  match o with
  | GetOutcome.writeErr e => (zeroGetResponse, some e)
  | _ =>
    match getLocal o with
    | (_, flags, _, some e) =>
      if e = Err.keyNotFound then
        ({ miss := true, quiet := false, opq := cmd.opq, flags := flags
           key := cmd.key, data := none }, none)
      else (zeroGetResponse, some e)
    | (dta, flags, _, none) =>
      ({ miss := false, quiet := false, opq := cmd.opq, flags := flags
         key := cmd.key, data := dta }, none)

/-- Whether a per-key outcome lets the loop proceed to the next key: a
hit or a miss (anything else aborts the batch or never returns). -/
def isStep : GetOutcome → Bool
  | GetOutcome.hit _ _ _ => true
  | GetOutcome.miss => true
  | _ => false

/-- The data-channel items the get loop emits for a script of hit/miss
outcomes starting at key position `idx` (used to state the trace
theorems). -/
def itemsOf (cmd : GetRequest) : Nat → List (List Nat) → List GetOutcome →
    List (GEvent GetResponse)
  | _, _, [] => []
  | _, [], _ :: _ => []
  | idx, key :: keys, o :: os =>
    match o with
    | GetOutcome.miss =>
      GEvent.item { miss := true, quiet := cmd.quiet.getD idx false
                    opq := cmd.opaques.getD idx 0, flags := 0
                    key := key, data := none } :: itemsOf cmd (idx + 1) keys os
    | GetOutcome.hit d f _ =>
      GEvent.item { miss := false, quiet := cmd.quiet.getD idx false
                    opq := cmd.opaques.getD idx 0, flags := f
                    key := key, data := some d } :: itemsOf cmd (idx + 1) keys os
    | _ => []

/-- The data-channel items the gete loop emits for a script of hit/miss
outcomes starting at key position `idx`. -/
def itemsOfE (cmd : GetRequest) : Nat → List (List Nat) → List GetOutcome →
    List (GEvent GetEResponse)
  | _, _, [] => []
  | _, [], _ :: _ => []
  | idx, key :: keys, o :: os =>
    match o with
    | GetOutcome.miss =>
      GEvent.item { miss := true, quiet := cmd.quiet.getD idx false
                    opq := cmd.opaques.getD idx 0, flags := 0, exptime := 0
                    key := key, data := none } :: itemsOfE cmd (idx + 1) keys os
    | GetOutcome.hit d f x =>
      GEvent.item { miss := false, quiet := cmd.quiet.getD idx false
                    opq := cmd.opaques.getD idx 0, flags := f, exptime := x
                    key := key, data := some d } :: itemsOfE cmd (idx + 1) keys os
    | _ => []

/-- The five mutation command kinds sharing `handleSetCommon`. -/
inductive MutKind where
  | set
  | add
  | replace
  | append
  | prepend
deriving DecidableEq, Repr

/-- The opcode each mutation command encodes. -/
def mutOpcode : MutKind → Nat
  | MutKind.set => opSet
  | MutKind.add => opAdd
  | MutKind.replace => opReplace
  | MutKind.append => opAppend
  | MutKind.prepend => opPrepend

/-- Dispatch to the five mutation commands, for stating properties
common to all of them. -/
def mutate : MutKind → SetRequest → HandlerState → Option Err × HandlerState
  | MutKind.set => Set
  | MutKind.add => Add
  | MutKind.replace => Replace
  | MutKind.append => Append
  | MutKind.prepend => Prepend

/-- Concrete witness data: a response header classified as key-exists
with a two-byte diagnostic body. -/
def wHdrErr : ResponseHeader :=
  { status := 2, keyLength := 0, extraLength := 0, totalBodyLength := 2
    opaqueToken := 0, cas := 0 }

/-- Concrete witness data: a success header with no body. -/
def wHdrOK : ResponseHeader :=
  { status := 0, keyLength := 0, extraLength := 0, totalBodyLength := 0
    opaqueToken := 0, cas := 0 }

/-- Concrete witness data: stream tail after the error header. -/
def wRest : List StreamItem :=
  [StreamItem.byte 7, StreamItem.byte 8, StreamItem.byte 9]

/-- Concrete witness data: a healthy handler whose stream holds the
error header followed by its body bytes and one extra byte. -/
def wStErr : HandlerState :=
  { sent := [], wbuf := [], writeBroken := false
    istream := StreamItem.hdr wHdrErr :: wRest, pool := []
    connClosed := false, connCloseErr := none }

/-- Concrete witness data: a healthy handler whose stream holds a
success header. -/
def wStOK : HandlerState :=
  { sent := [], wbuf := [], writeBroken := false
    istream := [StreamItem.hdr wHdrOK], pool := []
    connClosed := false, connCloseErr := none }

/-- Concrete witness data: a handler whose stream declares a two-byte
body but holds only one byte after the error header. -/
def wStShort : HandlerState :=
  { sent := [], wbuf := [], writeBroken := false
    istream := [StreamItem.hdr wHdrErr, StreamItem.byte 7], pool := []
    connClosed := false, connCloseErr := none }

/-- Concrete witness data: a set request. -/
def wSet : SetRequest :=
  { key := [1, 2], flags := 5, exptime := 6, data := [9, 9, 9] }

/-- Concrete witness data: a three-key batched get request. -/
def wGet : GetRequest :=
  { keys := [[1], [2], [3]], quiet := [true, false, true]
    opaques := [10, 20, 30] }

/-- Concrete witness data: a get-and-touch request. -/
def wGAT : GATRequest := { key := [4], exptime := 9, opq := 77 }

/-- Concrete witness data: a two-key batched get request whose quiet
slice covers only the first key. -/
def wGetShort : GetRequest :=
  { keys := [[1], [2]], quiet := [true], opaques := [4, 5] }

/-- Concrete witness data: a one-key batched get request with empty
quiet and opaque slices. -/
def wGetBare : GetRequest := { keys := [[0]], quiet := [], opaques := [] }

lemma mutate_eq (k : MutKind) (cmd : SetRequest) (st : HandlerState) :
    mutate k cmd st =
      handleSetCommon cmd.data
        (bufWrite
          (encodeCmd (mutOpcode k) cmd.key cmd.flags cmd.exptime
            (cmd.data.length % 2 ^ 32) 0) st) := by
  cases k <;> rfl

lemma handleSetCommon_classified (dta : List Nat) (st : HandlerState)
    (h : ResponseHeader) (rest : List StreamItem) (e : Err)
    (hwb : st.writeBroken = false)
    (hs : st.istream = StreamItem.hdr h :: rest)
    (hd : decodeError h = some e)
    (hlen : h.totalBodyLength ≤ rest.length) :
    handleSetCommon dta st =
      (some e,
        { st with sent := st.sent ++ (st.wbuf ++ dta), wbuf := []
                  istream := rest.drop h.totalBodyLength
                  pool := h :: st.pool }) := by
  obtain ⟨s1, s2, s3, s4, s5, s6, s7⟩ := st
  simp only at hwb hs
  subst hwb hs
  simp [handleSetCommon, bufWrite, flush, readResponseHeader,
    putResponseHeader, discard, hd, hlen]

lemma handleSetCommon_ok (dta : List Nat) (st : HandlerState)
    (h : ResponseHeader) (rest : List StreamItem)
    (hwb : st.writeBroken = false)
    (hs : st.istream = StreamItem.hdr h :: rest)
    (hd : decodeError h = none) :
    handleSetCommon dta st =
      (none,
        { st with sent := st.sent ++ (st.wbuf ++ dta), wbuf := []
                  istream := rest, pool := h :: st.pool }) := by
  obtain ⟨s1, s2, s3, s4, s5, s6, s7⟩ := st
  simp only at hwb hs
  subst hwb hs
  simp [handleSetCommon, bufWrite, flush, readResponseHeader,
    putResponseHeader, hd]

lemma handleSetCommon_discardFail (dta : List Nat) (st : HandlerState)
    (h : ResponseHeader) (rest : List StreamItem) (e : Err)
    (hwb : st.writeBroken = false)
    (hs : st.istream = StreamItem.hdr h :: rest)
    (hd : decodeError h = some e)
    (hlen : rest.length < h.totalBodyLength) :
    handleSetCommon dta st =
      (some Err.ioErrDiscard,
        { st with sent := st.sent ++ (st.wbuf ++ dta), wbuf := []
                  istream := [], pool := h :: st.pool }) := by
  obtain ⟨s1, s2, s3, s4, s5, s6, s7⟩ := st
  simp only at hwb hs
  subst hwb hs
  have hlen2 : ¬ h.totalBodyLength ≤ rest.length := by omega
  simp [handleSetCommon, bufWrite, flush, readResponseHeader,
    putResponseHeader, discard, hd, hlen2]

lemma decodeError_not_io (h : ResponseHeader) (e : Err)
    (hd : decodeError h = some e) : e ≠ Err.ioErrDiscard := by
  unfold decodeError at hd
  split at hd
  · exact absurd hd (by simp)
  · split at hd
    · cases hd; simp
    · split at hd
      · cases hd; simp
      · cases hd; simp

/-- C1: for every mutation command (Set, Add, Replace, Append, Prepend)
whose response status is classified as an error, the handler discards
exactly `TotalBodyLength` items from the read stream and returns the
classified error itself, unchanged, provided the discard succeeds. -/
theorem claim_C1_mutation_error_discards_body (k : MutKind)
    (cmd : SetRequest) (st : HandlerState) (h : ResponseHeader)
    (rest : List StreamItem) (e : Err)
    (hwb : st.writeBroken = false)
    (hs : st.istream = StreamItem.hdr h :: rest)
    (hd : decodeError h = some e)
    (hlen : h.totalBodyLength ≤ rest.length) :
    (mutate k cmd st).1 = some e ∧
      (mutate k cmd st).2.istream = rest.drop h.totalBodyLength := by
  rw [mutate_eq, handleSetCommon_classified _ _ h rest e (by simp [bufWrite, hwb])
    (by simp [bufWrite, hs]) hd hlen]
  exact ⟨rfl, rfl⟩

/-- Witness for C1: an add whose response is classified key-exists with
a two-byte body; the two body bytes are discarded and key-exists is
returned. -/
theorem claim_C1_witness :
    wStErr.writeBroken = false ∧
    wStErr.istream = StreamItem.hdr wHdrErr :: wRest ∧
    decodeError wHdrErr = some Err.keyExists ∧
    wHdrErr.totalBodyLength ≤ wRest.length ∧
    ((mutate MutKind.add wSet wStErr).1 = some Err.keyExists ∧
      (mutate MutKind.add wSet wStErr).2.istream =
        wRest.drop wHdrErr.totalBodyLength) :=
  ⟨by decide, by decide, by decide, by decide,
    claim_C1_mutation_error_discards_body MutKind.add wSet wStErr wHdrErr wRest
      Err.keyExists (by decide) (by decide) (by decide) (by decide)⟩

/-- C5: for every mutation command whose response status is classified
as success, the call returns no error and the bytes put on the wire are
exactly the encoded command header followed by the payload bytes. -/
theorem claim_C5_mutation_success_writes_header_then_payload (k : MutKind)
    (cmd : SetRequest) (st : HandlerState) (h : ResponseHeader)
    (rest : List StreamItem)
    (hwbuf : st.wbuf = [])
    (hwb : st.writeBroken = false)
    (hs : st.istream = StreamItem.hdr h :: rest)
    (hd : decodeError h = none) :
    (mutate k cmd st).1 = none ∧
      (mutate k cmd st).2.sent =
        st.sent ++
          (encodeCmd (mutOpcode k) cmd.key cmd.flags cmd.exptime
            (cmd.data.length % 2 ^ 32) 0 ++ cmd.data) := by
  rw [mutate_eq, handleSetCommon_ok _ _ h rest (by simp [bufWrite, hwb])
    (by simp [bufWrite, hs]) hd]
  refine ⟨rfl, ?_⟩
  simp [bufWrite, hwbuf]

/-- Witness for C5: a successful set; the wire receives the encoded
header then the three payload bytes, and no error is returned. -/
theorem claim_C5_witness :
    wStOK.wbuf = [] ∧
    wStOK.writeBroken = false ∧
    wStOK.istream = StreamItem.hdr wHdrOK :: [] ∧
    decodeError wHdrOK = none ∧
    ((mutate MutKind.set wSet wStOK).1 = none ∧
      (mutate MutKind.set wSet wStOK).2.sent =
        wStOK.sent ++
          (encodeCmd (mutOpcode MutKind.set) wSet.key wSet.flags wSet.exptime
            (wSet.data.length % 2 ^ 32) 0 ++ wSet.data)) :=
  ⟨by decide, by decide, by decide, by decide,
    claim_C5_mutation_success_writes_header_then_payload MutKind.set wSet wStOK
      wHdrOK [] (by decide) (by decide) (by decide) (by decide)⟩

/-- C6: for every mutation command whose response status is classified
as an error, if discarding the declared body bytes itself fails with a
stream error, the call returns that I/O failure instead of the
classified error. -/
theorem claim_C6_discard_failure_replaces_classified_error (k : MutKind)
    (cmd : SetRequest) (st : HandlerState) (h : ResponseHeader)
    (rest : List StreamItem) (e : Err)
    (hwb : st.writeBroken = false)
    (hs : st.istream = StreamItem.hdr h :: rest)
    (hd : decodeError h = some e)
    (hlen : rest.length < h.totalBodyLength) :
    (mutate k cmd st).1 = some Err.ioErrDiscard ∧ e ≠ Err.ioErrDiscard := by
  rw [mutate_eq, handleSetCommon_discardFail _ _ h rest e (by simp [bufWrite, hwb])
    (by simp [bufWrite, hs]) hd hlen]
  exact ⟨rfl, decodeError_not_io h e hd⟩

/-- Witness for C6: a replace whose key-not-found response declares a
two-byte body while only one byte remains on the stream; the discard
fails and the I/O failure, not key-exists, is returned. -/
theorem claim_C6_witness :
    wStShort.writeBroken = false ∧
    wStShort.istream = StreamItem.hdr wHdrErr :: [StreamItem.byte 7] ∧
    decodeError wHdrErr = some Err.keyExists ∧
    [StreamItem.byte 7].length < wHdrErr.totalBodyLength ∧
    ((mutate MutKind.replace wSet wStShort).1 = some Err.ioErrDiscard ∧
      Err.keyExists ≠ Err.ioErrDiscard) :=
  ⟨by decide, by decide, by decide, by decide,
    claim_C6_discard_failure_replaces_classified_error MutKind.replace wSet
      wStShort wHdrErr [StreamItem.byte 7] Err.keyExists (by decide) (by decide)
      (by decide) (by decide)⟩

/-- C3: nothing in the mutation path reads a response header out of the
pool after its release: overwriting the pool's contents with arbitrary
junk immediately after the release call changes neither the returned
error, nor the header value `readResponseHeader` hands back, nor the
read-stream, wire, and buffer effects — in particular the
`TotalBodyLength` used for discard accounting on the error path was
copied out of the header (as a value) before the release. -/
theorem claim_C3_no_header_field_read_after_release
    (junk : List ResponseHeader) (dta : List Nat) (st : HandlerState) :
    (readResponseHeaderScrambled junk st).1 = (readResponseHeader st).1 ∧
    (handleSetCommonScrambled junk dta st).1 = (handleSetCommon dta st).1 ∧
    (handleSetCommonScrambled junk dta st).2.istream =
      (handleSetCommon dta st).2.istream ∧
    (handleSetCommonScrambled junk dta st).2.sent =
      (handleSetCommon dta st).2.sent ∧
    (handleSetCommonScrambled junk dta st).2.wbuf =
      (handleSetCommon dta st).2.wbuf := by
  have h1 : ∀ t : HandlerState,
      (readResponseHeaderScrambled junk t).1 = (readResponseHeader t).1 := by
    intro t
    obtain ⟨t1, t2, t3, t4, t5, t6, t7⟩ := t
    cases t4 with
    | nil => rfl
    | cons si rest =>
      cases si with
      | byte b => rfl
      | hdr h =>
        rcases hde : decodeError h with _ | e <;>
          simp [readResponseHeader, readResponseHeaderScrambled,
            putResponseHeader, hde]
  refine ⟨h1 st, ?_⟩
  obtain ⟨s1, s2, s3, s4, s5, s6, s7⟩ := st
  cases s3 with
  | true =>
    simp [handleSetCommon, handleSetCommonScrambled, bufWrite, flush]
  | false =>
    cases s4 with
    | nil =>
      simp [handleSetCommon, handleSetCommonScrambled, readResponseHeader,
        readResponseHeaderScrambled, bufWrite, flush, discard, emptyHeader]
    | cons si rest =>
      cases si with
      | byte b =>
        simp [handleSetCommon, handleSetCommonScrambled, readResponseHeader,
          readResponseHeaderScrambled, bufWrite, flush, discard, emptyHeader]
      | hdr h =>
        rcases hde : decodeError h with _ | e
        · simp [handleSetCommon, handleSetCommonScrambled, readResponseHeader,
            readResponseHeaderScrambled, bufWrite, flush, putResponseHeader, hde]
        · by_cases hl : h.totalBodyLength ≤ rest.length
          · simp [handleSetCommon, handleSetCommonScrambled, readResponseHeader,
              readResponseHeaderScrambled, bufWrite, flush, putResponseHeader,
              discard, hde, hl]
          · simp [handleSetCommon, handleSetCommonScrambled, readResponseHeader,
              readResponseHeaderScrambled, bufWrite, flush, putResponseHeader,
              discard, hde, hl]

lemma getLoopAux_steps (cmd : GetRequest) :
    ∀ (pre : List GetOutcome) (idx : Nat) (keys : List (List Nat))
      (rest : List GetOutcome),
      (∀ o ∈ pre, isStep o = true) →
      pre.length ≤ keys.length →
      idx + pre.length ≤ cmd.quiet.length →
      idx + pre.length ≤ cmd.opaques.length →
      getLoopAux cmd idx keys (pre ++ rest) =
        itemsOf cmd idx keys pre ++
          getLoopAux cmd (idx + pre.length) (keys.drop pre.length) rest := by
  intro pre
  induction pre with
  | nil =>
    intro idx keys rest _ _ _ _
    simp [itemsOf]
  | cons o pre ih =>
    intro idx keys rest hsteps hlen hq hop
    cases keys with
    | nil => simp at hlen
    | cons key keys =>
      have ho : isStep o = true := hsteps o (by simp)
      simp only [List.length_cons] at hlen hq hop
      have hq1 : idx < cmd.quiet.length := by omega
      have hop1 : idx < cmd.opaques.length := by omega
      obtain ⟨q, hqe⟩ : ∃ q, cmd.quiet[idx]? = some q :=
        ⟨_, List.getElem?_eq_getElem hq1⟩
      obtain ⟨p, hpe⟩ : ∃ p, cmd.opaques[idx]? = some p :=
        ⟨_, List.getElem?_eq_getElem hop1⟩
      have ihh := ih (idx + 1) keys rest (fun x hx => hsteps x (by simp [hx]))
        (by omega) (by omega) (by omega)
      have hidx : idx + (pre.length + 1) = idx + 1 + pre.length := by omega
      cases o with
      | writeErr e => simp [isStep] at ho
      | readErr e => simp [isStep] at ho
      | miss =>
        simp [getLoopAux, getLocal, itemsOf, hqe, hpe, ihh, hidx,
          List.drop_succ_cons]
      | hit d f x =>
        simp [getLoopAux, getLocal, itemsOf, hqe, hpe, ihh, hidx,
          List.drop_succ_cons]

lemma getELoopAux_steps (cmd : GetRequest) :
    ∀ (pre : List GetOutcome) (idx : Nat) (keys : List (List Nat))
      (rest : List GetOutcome),
      (∀ o ∈ pre, isStep o = true) →
      pre.length ≤ keys.length →
      idx + pre.length ≤ cmd.quiet.length →
      idx + pre.length ≤ cmd.opaques.length →
      getELoopAux cmd idx keys (pre ++ rest) =
        itemsOfE cmd idx keys pre ++
          getELoopAux cmd (idx + pre.length) (keys.drop pre.length) rest := by
  intro pre
  induction pre with
  | nil =>
    intro idx keys rest _ _ _ _
    simp [itemsOfE]
  | cons o pre ih =>
    intro idx keys rest hsteps hlen hq hop
    cases keys with
    | nil => simp at hlen
    | cons key keys =>
      have ho : isStep o = true := hsteps o (by simp)
      simp only [List.length_cons] at hlen hq hop
      have hq1 : idx < cmd.quiet.length := by omega
      have hop1 : idx < cmd.opaques.length := by omega
      obtain ⟨q, hqe⟩ : ∃ q, cmd.quiet[idx]? = some q :=
        ⟨_, List.getElem?_eq_getElem hq1⟩
      obtain ⟨p, hpe⟩ : ∃ p, cmd.opaques[idx]? = some p :=
        ⟨_, List.getElem?_eq_getElem hop1⟩
      have ihh := ih (idx + 1) keys rest (fun x hx => hsteps x (by simp [hx]))
        (by omega) (by omega) (by omega)
      have hidx : idx + (pre.length + 1) = idx + 1 + pre.length := by omega
      cases o with
      | writeErr e => simp [isStep] at ho
      | readErr e => simp [isStep] at ho
      | miss =>
        simp [getELoopAux, getLocal, itemsOfE, hqe, hpe, ihh, hidx,
          List.drop_succ_cons]
      | hit d f x =>
        simp [getELoopAux, getLocal, itemsOfE, hqe, hpe, ihh, hidx,
          List.drop_succ_cons]

lemma itemsOf_length (cmd : GetRequest) :
    ∀ (pre : List GetOutcome) (idx : Nat) (keys : List (List Nat)),
      (∀ o ∈ pre, isStep o = true) →
      pre.length ≤ keys.length →
      (itemsOf cmd idx keys pre).length = pre.length := by
  intro pre
  induction pre with
  | nil => intro idx keys _ _; simp [itemsOf]
  | cons o pre ih =>
    intro idx keys hsteps hlen
    cases keys with
    | nil => simp at hlen
    | cons key keys =>
      have ho : isStep o = true := hsteps o (by simp)
      simp only [List.length_cons] at hlen
      have ihh := ih (idx + 1) keys (fun x hx => hsteps x (by simp [hx]))
        (by omega)
      cases o with
      | writeErr e => simp [isStep] at ho
      | readErr e => simp [isStep] at ho
      | miss => simp [itemsOf, ihh]
      | hit d f x => simp [itemsOf, ihh]

lemma itemsOfE_length (cmd : GetRequest) :
    ∀ (pre : List GetOutcome) (idx : Nat) (keys : List (List Nat)),
      (∀ o ∈ pre, isStep o = true) →
      pre.length ≤ keys.length →
      (itemsOfE cmd idx keys pre).length = pre.length := by
  intro pre
  induction pre with
  | nil => intro idx keys _ _; simp [itemsOfE]
  | cons o pre ih =>
    intro idx keys hsteps hlen
    cases keys with
    | nil => simp at hlen
    | cons key keys =>
      have ho : isStep o = true := hsteps o (by simp)
      simp only [List.length_cons] at hlen
      have ihh := ih (idx + 1) keys (fun x hx => hsteps x (by simp [hx]))
        (by omega)
      cases o with
      | writeErr e => simp [isStep] at ho
      | readErr e => simp [isStep] at ho
      | miss => simp [itemsOfE, ihh]
      | hit d f x => simp [itemsOfE, ihh]

lemma itemsOf_all_item (cmd : GetRequest) :
    ∀ (pre : List GetOutcome) (idx : Nat) (keys : List (List Nat)),
      ∀ ev ∈ itemsOf cmd idx keys pre, ∃ r, ev = GEvent.item r := by
  intro pre
  induction pre with
  | nil => intro idx keys ev hev; simp [itemsOf] at hev
  | cons o pre ih =>
    intro idx keys ev hev
    cases keys with
    | nil => simp [itemsOf] at hev
    | cons key keys =>
      cases o with
      | writeErr e => simp [itemsOf] at hev
      | readErr e => simp [itemsOf] at hev
      | miss =>
        simp only [itemsOf, List.mem_cons] at hev
        rcases hev with h | h
        · exact ⟨_, h⟩
        · exact ih (idx + 1) keys ev h
      | hit d f x =>
        simp only [itemsOf, List.mem_cons] at hev
        rcases hev with h | h
        · exact ⟨_, h⟩
        · exact ih (idx + 1) keys ev h

lemma itemsOfE_all_item (cmd : GetRequest) :
    ∀ (pre : List GetOutcome) (idx : Nat) (keys : List (List Nat)),
      ∀ ev ∈ itemsOfE cmd idx keys pre, ∃ r, ev = GEvent.item r := by
  intro pre
  induction pre with
  | nil => intro idx keys ev hev; simp [itemsOfE] at hev
  | cons o pre ih =>
    intro idx keys ev hev
    cases keys with
    | nil => simp [itemsOfE] at hev
    | cons key keys =>
      cases o with
      | writeErr e => simp [itemsOfE] at hev
      | readErr e => simp [itemsOfE] at hev
      | miss =>
        simp only [itemsOfE, List.mem_cons] at hev
        rcases hev with h | h
        · exact ⟨_, h⟩
        · exact ih (idx + 1) keys ev h
      | hit d f x =>
        simp only [itemsOfE, List.mem_cons] at hev
        rcases hev with h | h
        · exact ⟨_, h⟩
        · exact ih (idx + 1) keys ev h

lemma getLoopAux_err (cmd : GetRequest) (idx : Nat) (key : List Nat)
    (keys : List (List Nat)) (rest : List GetOutcome) (e : Err)
    (he : e ≠ Err.keyNotFound) :
    getLoopAux cmd idx (key :: keys) (GetOutcome.readErr e :: rest) =
      [GEvent.err e, GEvent.closeData, GEvent.closeErr] := by
  simp [getLoopAux, getLocal, he]

lemma getELoopAux_err (cmd : GetRequest) (idx : Nat) (key : List Nat)
    (keys : List (List Nat)) (rest : List GetOutcome) (e : Err)
    (he : e ≠ Err.keyNotFound) :
    getELoopAux cmd idx (key :: keys) (GetOutcome.readErr e :: rest) =
      [GEvent.err e, GEvent.closeData, GEvent.closeErr] := by
  simp [getELoopAux, getLocal, he]

lemma getLoopAux_oob (cmd : GetRequest) (idx : Nat) (key : List Nat)
    (keys : List (List Nat)) (rest : List GetOutcome) (o : GetOutcome)
    (ho : isStep o = true)
    (hnone : cmd.quiet[idx]? = none ∨ cmd.opaques[idx]? = none) :
    getLoopAux cmd idx (key :: keys) (o :: rest) =
      [GEvent.oob, GEvent.closeData, GEvent.closeErr] := by
  cases o with
  | writeErr e => simp [isStep] at ho
  | readErr e => simp [isStep] at ho
  | miss =>
    rcases hnone with hn | hn
    · simp [getLoopAux, getLocal, hn]
    · rcases hq2 : cmd.quiet[idx]? with _ | q <;>
        simp [getLoopAux, getLocal, hq2, hn]
  | hit d f x =>
    rcases hnone with hn | hn
    · simp [getLoopAux, getLocal, hn]
    · rcases hq2 : cmd.quiet[idx]? with _ | q <;>
        simp [getLoopAux, getLocal, hq2, hn]

lemma getELoopAux_oob (cmd : GetRequest) (idx : Nat) (key : List Nat)
    (keys : List (List Nat)) (rest : List GetOutcome) (o : GetOutcome)
    (ho : isStep o = true)
    (hnone : cmd.quiet[idx]? = none ∨ cmd.opaques[idx]? = none) :
    getELoopAux cmd idx (key :: keys) (o :: rest) =
      [GEvent.oob, GEvent.closeData, GEvent.closeErr] := by
  cases o with
  | writeErr e => simp [isStep] at ho
  | readErr e => simp [isStep] at ho
  | miss =>
    rcases hnone with hn | hn
    · simp [getELoopAux, getLocal, hn]
    · rcases hq2 : cmd.quiet[idx]? with _ | q <;>
        simp [getELoopAux, getLocal, hq2, hn]
  | hit d f x =>
    rcases hnone with hn | hn
    · simp [getELoopAux, getLocal, hn]
    · rcases hq2 : cmd.quiet[idx]? with _ | q <;>
        simp [getELoopAux, getLocal, hq2, hn]

lemma itemsOf_allmiss (cmd : GetRequest) :
    ∀ (script : List GetOutcome) (idx : Nat) (keys : List (List Nat)),
      (∀ o ∈ script, o = GetOutcome.miss) →
      script.length = keys.length →
      itemsOf cmd idx keys script =
        (keys.enumFrom idx).map fun p =>
          GEvent.item { miss := true, quiet := cmd.quiet.getD p.1 false
                        opq := cmd.opaques.getD p.1 0, flags := 0
                        key := p.2, data := none } := by
  intro script
  induction script with
  | nil =>
    intro idx keys _ hlen
    cases keys with
    | nil => simp [itemsOf]
    | cons key keys => simp at hlen
  | cons o script ih =>
    intro idx keys hall hlen
    cases keys with
    | nil => simp at hlen
    | cons key keys =>
      have ho : o = GetOutcome.miss := hall o (by simp)
      subst ho
      simp only [List.length_cons] at hlen
      have ihh := ih (idx + 1) keys (fun x hx => hall x (by simp [hx]))
        (by omega)
      simp [itemsOf, List.enumFrom, ihh]

lemma itemsOfE_allmiss (cmd : GetRequest) :
    ∀ (script : List GetOutcome) (idx : Nat) (keys : List (List Nat)),
      (∀ o ∈ script, o = GetOutcome.miss) →
      script.length = keys.length →
      itemsOfE cmd idx keys script =
        (keys.enumFrom idx).map fun p =>
          GEvent.item { miss := true, quiet := cmd.quiet.getD p.1 false
                        opq := cmd.opaques.getD p.1 0, flags := 0, exptime := 0
                        key := p.2, data := none } := by
  intro script
  induction script with
  | nil =>
    intro idx keys _ hlen
    cases keys with
    | nil => simp [itemsOfE]
    | cons key keys => simp at hlen
  | cons o script ih =>
    intro idx keys hall hlen
    cases keys with
    | nil => simp at hlen
    | cons key keys =>
      have ho : o = GetOutcome.miss := hall o (by simp)
      subst ho
      simp only [List.length_cons] at hlen
      have ihh := ih (idx + 1) keys (fun x hx => hall x (by simp [hx]))
        (by omega)
      simp [itemsOfE, List.enumFrom, ihh]

/-- C2: for a batched Get (or GetE) where the first k−1 single-key
reads succeed or miss and the k-th fails with an error other than
key-not-found, the goroutine's whole event trace is exactly the k−1
per-key results, then the one error on the error channel, then both
channel closes — independent of the remaining script, so the remaining
keys are never processed. -/
theorem claim_C2_fail_fast_aborts_batch (cmd : GetRequest)
    (pre rest : List GetOutcome) (e : Err)
    (hsteps : ∀ o ∈ pre, isStep o = true)
    (he : e ≠ Err.keyNotFound)
    (hkeys : pre.length < cmd.keys.length)
    (hq : pre.length ≤ cmd.quiet.length)
    (hop : pre.length ≤ cmd.opaques.length) :
    (realHandleGet cmd (pre ++ GetOutcome.readErr e :: rest) =
      itemsOf cmd 0 cmd.keys pre ++
        [GEvent.err e, GEvent.closeData, GEvent.closeErr]) ∧
    (itemsOf cmd 0 cmd.keys pre).length = pre.length ∧
    (∀ ev ∈ itemsOf cmd 0 cmd.keys pre, ∃ r, ev = GEvent.item r) ∧
    (realHandleGetE cmd (pre ++ GetOutcome.readErr e :: rest) =
      itemsOfE cmd 0 cmd.keys pre ++
        [GEvent.err e, GEvent.closeData, GEvent.closeErr]) ∧
    (itemsOfE cmd 0 cmd.keys pre).length = pre.length ∧
    (∀ ev ∈ itemsOfE cmd 0 cmd.keys pre, ∃ r, ev = GEvent.item r) := by
  have hkeys' : pre.length ≤ cmd.keys.length := le_of_lt hkeys
  have hdrop := List.drop_eq_getElem_cons hkeys
  have h0 := getLoopAux_steps cmd pre 0 cmd.keys (GetOutcome.readErr e :: rest)
    hsteps hkeys' (by omega) (by omega)
  have h0E := getELoopAux_steps cmd pre 0 cmd.keys (GetOutcome.readErr e :: rest)
    hsteps hkeys' (by omega) (by omega)
  simp only [Nat.zero_add] at h0 h0E
  refine ⟨?_, itemsOf_length cmd pre 0 cmd.keys hsteps hkeys',
    itemsOf_all_item cmd pre 0 cmd.keys, ?_,
    itemsOfE_length cmd pre 0 cmd.keys hsteps hkeys',
    itemsOfE_all_item cmd pre 0 cmd.keys⟩
  · simp only [realHandleGet]
    rw [h0, hdrop, getLoopAux_err cmd pre.length _ _ _ e he]
  · simp only [realHandleGetE]
    rw [h0E, hdrop, getELoopAux_err cmd pre.length _ _ _ e he]

/-- Witness for C2: a three-key batch whose second read fails with a
generic error after one miss; the trace is one miss item, the error,
and both closes, for Get and GetE alike. -/
theorem claim_C2_witness :
    (∀ o ∈ [GetOutcome.miss], isStep o = true) ∧
    Err.generic 9 ≠ Err.keyNotFound ∧
    [GetOutcome.miss].length < wGet.keys.length ∧
    [GetOutcome.miss].length ≤ wGet.quiet.length ∧
    [GetOutcome.miss].length ≤ wGet.opaques.length ∧
    ((realHandleGet wGet
        ([GetOutcome.miss] ++ GetOutcome.readErr (Err.generic 9) :: []) =
      itemsOf wGet 0 wGet.keys [GetOutcome.miss] ++
        [GEvent.err (Err.generic 9), GEvent.closeData, GEvent.closeErr]) ∧
    (itemsOf wGet 0 wGet.keys [GetOutcome.miss]).length =
      [GetOutcome.miss].length ∧
    (∀ ev ∈ itemsOf wGet 0 wGet.keys [GetOutcome.miss],
      ∃ r, ev = GEvent.item r) ∧
    (realHandleGetE wGet
        ([GetOutcome.miss] ++ GetOutcome.readErr (Err.generic 9) :: []) =
      itemsOfE wGet 0 wGet.keys [GetOutcome.miss] ++
        [GEvent.err (Err.generic 9), GEvent.closeData, GEvent.closeErr]) ∧
    (itemsOfE wGet 0 wGet.keys [GetOutcome.miss]).length =
      [GetOutcome.miss].length ∧
    (∀ ev ∈ itemsOfE wGet 0 wGet.keys [GetOutcome.miss],
      ∃ r, ev = GEvent.item r)) :=
  ⟨by decide, by decide, by decide, by decide, by decide,
    claim_C2_fail_fast_aborts_batch wGet [GetOutcome.miss] []
      (Err.generic 9) (by decide) (by decide) (by decide) (by decide)
      (by decide)⟩

/-- C7: for a batched Get (or GetE) in which every key misses, the
trace is exactly one miss item per key in input key order, followed by
the closing of both channels, with no event on the error channel. -/
theorem claim_C7_all_miss_clean_close (cmd : GetRequest)
    (script : List GetOutcome)
    (hall : ∀ o ∈ script, o = GetOutcome.miss)
    (hlen : script.length = cmd.keys.length)
    (hq : cmd.keys.length ≤ cmd.quiet.length)
    (hop : cmd.keys.length ≤ cmd.opaques.length) :
    realHandleGet cmd script =
      (cmd.keys.enum.map fun p =>
        GEvent.item { miss := true, quiet := cmd.quiet.getD p.1 false
                      opq := cmd.opaques.getD p.1 0, flags := 0
                      key := p.2, data := none }) ++
        [GEvent.closeData, GEvent.closeErr] ∧
    realHandleGetE cmd script =
      (cmd.keys.enum.map fun p =>
        GEvent.item { miss := true, quiet := cmd.quiet.getD p.1 false
                      opq := cmd.opaques.getD p.1 0, flags := 0, exptime := 0
                      key := p.2, data := none }) ++
        [GEvent.closeData, GEvent.closeErr] := by
  have hsteps : ∀ o ∈ script, isStep o = true := by
    intro o ho
    rw [hall o ho]
    rfl
  have h0 := getLoopAux_steps cmd script 0 cmd.keys [] hsteps (le_of_eq hlen)
    (by omega) (by omega)
  have h0E := getELoopAux_steps cmd script 0 cmd.keys [] hsteps (le_of_eq hlen)
    (by omega) (by omega)
  rw [List.append_nil] at h0 h0E
  simp only [Nat.zero_add] at h0 h0E
  have hdrop : cmd.keys.drop script.length = [] := by
    rw [hlen]
    exact List.drop_length cmd.keys
  constructor
  · simp only [realHandleGet]
    rw [h0, hdrop, itemsOf_allmiss cmd script 0 cmd.keys hall hlen]
    simp [getLoopAux, List.enum]
  · simp only [realHandleGetE]
    rw [h0E, hdrop, itemsOfE_allmiss cmd script 0 cmd.keys hall hlen]
    simp [getELoopAux, List.enum]

/-- Witness for C7: three keys, all missing; three miss items in key
order then both closes, for Get and GetE alike. -/
theorem claim_C7_witness :
    (∀ o ∈ [GetOutcome.miss, GetOutcome.miss, GetOutcome.miss],
      o = GetOutcome.miss) ∧
    [GetOutcome.miss, GetOutcome.miss, GetOutcome.miss].length =
      wGet.keys.length ∧
    wGet.keys.length ≤ wGet.quiet.length ∧
    wGet.keys.length ≤ wGet.opaques.length ∧
    (realHandleGet wGet [GetOutcome.miss, GetOutcome.miss, GetOutcome.miss] =
      (wGet.keys.enum.map fun p =>
        GEvent.item { miss := true, quiet := wGet.quiet.getD p.1 false
                      opq := wGet.opaques.getD p.1 0, flags := 0
                      key := p.2, data := none }) ++
        [GEvent.closeData, GEvent.closeErr] ∧
    realHandleGetE wGet [GetOutcome.miss, GetOutcome.miss, GetOutcome.miss] =
      (wGet.keys.enum.map fun p =>
        GEvent.item { miss := true, quiet := wGet.quiet.getD p.1 false
                      opq := wGet.opaques.getD p.1 0, flags := 0, exptime := 0
                      key := p.2, data := none }) ++
        [GEvent.closeData, GEvent.closeErr]) :=
  ⟨by decide, by decide, by decide, by decide,
    claim_C7_all_miss_clean_close wGet
      [GetOutcome.miss, GetOutcome.miss, GetOutcome.miss] (by decide)
      (by decide) (by decide) (by decide)⟩

/-- C4: a get-style read of an absent key yields a miss result with nil
payload and no error, preserving the key's quiet flag and opaque token:
in a batch the event at the missing key's position is exactly that miss
item (for Get and GetE), and a GAT miss returns the miss response with
the request's opaque token and no error (GATRequest carries no quiet
flag; the response's quiet field is false, cf. C9). -/
theorem claim_C4_miss_yields_nil_payload_no_error (cmd : GetRequest)
    (pre rest : List GetOutcome) (gat : GATRequest)
    (hsteps : ∀ o ∈ pre, isStep o = true)
    (hkeys : pre.length < cmd.keys.length)
    (hq : pre.length < cmd.quiet.length)
    (hop : pre.length < cmd.opaques.length) :
    (realHandleGet cmd (pre ++ GetOutcome.miss :: rest))[pre.length]? =
      some (GEvent.item
        { miss := true, quiet := cmd.quiet[pre.length]
          opq := cmd.opaques[pre.length], flags := 0
          key := cmd.keys[pre.length], data := none }) ∧
    (realHandleGetE cmd (pre ++ GetOutcome.miss :: rest))[pre.length]? =
      some (GEvent.item
        { miss := true, quiet := cmd.quiet[pre.length]
          opq := cmd.opaques[pre.length], flags := 0, exptime := 0
          key := cmd.keys[pre.length], data := none }) ∧
    GAT gat GetOutcome.miss =
      ({ miss := true, quiet := false, opq := gat.opq, flags := 0
         key := gat.key, data := none }, none) := by
  have hkeys' : pre.length ≤ cmd.keys.length := le_of_lt hkeys
  have hdrop := List.drop_eq_getElem_cons hkeys
  have hq? : cmd.quiet[pre.length]? = some cmd.quiet[pre.length] :=
    List.getElem?_eq_getElem hq
  have hop? : cmd.opaques[pre.length]? = some cmd.opaques[pre.length] :=
    List.getElem?_eq_getElem hop
  have hil := itemsOf_length cmd pre 0 cmd.keys hsteps hkeys'
  have hilE := itemsOfE_length cmd pre 0 cmd.keys hsteps hkeys'
  have h0 := getLoopAux_steps cmd pre 0 cmd.keys (GetOutcome.miss :: rest)
    hsteps hkeys' (by omega) (by omega)
  have h0E := getELoopAux_steps cmd pre 0 cmd.keys (GetOutcome.miss :: rest)
    hsteps hkeys' (by omega) (by omega)
  simp only [Nat.zero_add] at h0 h0E
  refine ⟨?_, ?_, by simp [GAT, getLocal]⟩
  · simp only [realHandleGet]
    rw [h0, hdrop]
    rw [show getLoopAux cmd pre.length
        (cmd.keys[pre.length] :: cmd.keys.drop (pre.length + 1))
        (GetOutcome.miss :: rest) =
      GEvent.item
        { miss := true, quiet := cmd.quiet[pre.length]
          opq := cmd.opaques[pre.length], flags := 0
          key := cmd.keys[pre.length], data := none } ::
        getLoopAux cmd (pre.length + 1) (cmd.keys.drop (pre.length + 1)) rest
      from by simp [getLoopAux, getLocal, hq?, hop?]]
    rw [List.getElem?_append_right (le_of_eq hil), hil, Nat.sub_self]
    simp
  · simp only [realHandleGetE]
    rw [h0E, hdrop]
    rw [show getELoopAux cmd pre.length
        (cmd.keys[pre.length] :: cmd.keys.drop (pre.length + 1))
        (GetOutcome.miss :: rest) =
      GEvent.item
        { miss := true, quiet := cmd.quiet[pre.length]
          opq := cmd.opaques[pre.length], flags := 0, exptime := 0
          key := cmd.keys[pre.length], data := none } ::
        getELoopAux cmd (pre.length + 1) (cmd.keys.drop (pre.length + 1)) rest
      from by simp [getELoopAux, getLocal, hq?, hop?]]
    rw [List.getElem?_append_right (le_of_eq hilE), hilE, Nat.sub_self]
    simp

/-- Witness for C4: the second key of a three-key batch misses; the
second event is the miss item carrying that key's quiet flag and opaque
token, and the GAT miss carries the request's opaque token. -/
theorem claim_C4_witness :
    (∀ o ∈ [GetOutcome.miss], isStep o = true) ∧
    [GetOutcome.miss].length < wGet.keys.length ∧
    [GetOutcome.miss].length < wGet.quiet.length ∧
    [GetOutcome.miss].length < wGet.opaques.length ∧
    ((realHandleGet wGet
        ([GetOutcome.miss] ++ GetOutcome.miss :: []))[[GetOutcome.miss].length]? =
      some (GEvent.item
        { miss := true, quiet := false, opq := 20, flags := 0
          key := [2], data := none }) ∧
    (realHandleGetE wGet
        ([GetOutcome.miss] ++ GetOutcome.miss :: []))[[GetOutcome.miss].length]? =
      some (GEvent.item
        { miss := true, quiet := false, opq := 20, flags := 0, exptime := 0
          key := [2], data := none }) ∧
    GAT wGAT GetOutcome.miss =
      ({ miss := true, quiet := false, opq := wGAT.opq, flags := 0
         key := wGAT.key, data := none }, none)) :=
  ⟨by decide, by decide, by decide, by decide,
    claim_C4_miss_yields_nil_payload_no_error wGet [GetOutcome.miss] [] wGAT
      (by decide) (by decide) (by decide) (by decide)⟩

/-- C8 as stated is false: a request whose quiet and opaque slices are
shorter than its key list does not always cause an out-of-bounds index
— if an earlier key's read fails with a transport error, the pipeline
aborts before ever touching the uncovered position.  Concretely, a
one-key request with empty quiet/opaque slices whose single read errors
produces no out-of-bounds access. -/
theorem claim_C8_counterexample :
    wGetBare.quiet.length < wGetBare.keys.length ∧
    wGetBare.opaques.length < wGetBare.keys.length ∧
    ¬ GEvent.oob ∈ realHandleGet wGetBare [GetOutcome.readErr (Err.generic 9)] ∧
    ¬ GEvent.oob ∈ realHandleGetE wGetBare [GetOutcome.readErr (Err.generic 9)] := by
  decide

/-- C8 (amended): the pipelines index the quiet and opaque slices at
each key's position with no length check, so when those slices are
shorter than the key list the background task performs an out-of-bounds
index as soon as it reaches the first uncovered position with a hit or
miss outcome: the trace is the covered keys' items followed by the
panic (and the deferred channel closes). -/
theorem claim_C8_short_slices_oob (cmd : GetRequest)
    (pre rest : List GetOutcome) (o : GetOutcome)
    (hsteps : ∀ x ∈ pre, isStep x = true)
    (ho : isStep o = true)
    (hkeys : pre.length < cmd.keys.length)
    (hq : pre.length ≤ cmd.quiet.length)
    (hop : pre.length ≤ cmd.opaques.length)
    (hshort : cmd.quiet.length = pre.length ∨ cmd.opaques.length = pre.length) :
    realHandleGet cmd (pre ++ o :: rest) =
      itemsOf cmd 0 cmd.keys pre ++
        [GEvent.oob, GEvent.closeData, GEvent.closeErr] ∧
    realHandleGetE cmd (pre ++ o :: rest) =
      itemsOfE cmd 0 cmd.keys pre ++
        [GEvent.oob, GEvent.closeData, GEvent.closeErr] := by
  have hkeys' : pre.length ≤ cmd.keys.length := le_of_lt hkeys
  have hdrop := List.drop_eq_getElem_cons hkeys
  have hnone : cmd.quiet[pre.length]? = none ∨
      cmd.opaques[pre.length]? = none := by
    rcases hshort with hs | hs
    · exact Or.inl (List.getElem?_eq_none (le_of_eq hs))
    · exact Or.inr (List.getElem?_eq_none (le_of_eq hs))
  have h0 := getLoopAux_steps cmd pre 0 cmd.keys (o :: rest) hsteps hkeys'
    (by omega) (by omega)
  have h0E := getELoopAux_steps cmd pre 0 cmd.keys (o :: rest) hsteps hkeys'
    (by omega) (by omega)
  simp only [Nat.zero_add] at h0 h0E
  constructor
  · simp only [realHandleGet]
    rw [h0, hdrop, getLoopAux_oob cmd pre.length _ _ rest o ho hnone]
  · simp only [realHandleGetE]
    rw [h0E, hdrop, getELoopAux_oob cmd pre.length _ _ rest o ho hnone]

/-- Witness for the amended C8: a two-key request whose quiet slice
covers only the first key; the first key misses, and reaching the
second key's miss panics with an out-of-bounds index after one item. -/
theorem claim_C8_witness :
    (∀ x ∈ [GetOutcome.miss], isStep x = true) ∧
    isStep GetOutcome.miss = true ∧
    [GetOutcome.miss].length < wGetShort.keys.length ∧
    [GetOutcome.miss].length ≤ wGetShort.quiet.length ∧
    [GetOutcome.miss].length ≤ wGetShort.opaques.length ∧
    (wGetShort.quiet.length = [GetOutcome.miss].length ∨
      wGetShort.opaques.length = [GetOutcome.miss].length) ∧
    (realHandleGet wGetShort ([GetOutcome.miss] ++ GetOutcome.miss :: []) =
      itemsOf wGetShort 0 wGetShort.keys [GetOutcome.miss] ++
        [GEvent.oob, GEvent.closeData, GEvent.closeErr] ∧
    realHandleGetE wGetShort ([GetOutcome.miss] ++ GetOutcome.miss :: []) =
      itemsOfE wGetShort 0 wGetShort.keys [GetOutcome.miss] ++
        [GEvent.oob, GEvent.closeData, GEvent.closeErr]) :=
  ⟨by decide, by decide, by decide, by decide, by decide, by decide,
    claim_C8_short_slices_oob wGetShort [GetOutcome.miss] [] GetOutcome.miss
      (by decide) (by decide) (by decide) (by decide) (by decide)
      (by decide)⟩

/-- C9: the GetResponse returned by GAT always carries quiet = false —
on a hit, on a miss, and on every error path — since GATRequest has no
quiet flag to propagate. -/
theorem claim_C9_gat_quiet_always_false (cmd : GATRequest) (o : GetOutcome) :
    (GAT cmd o).1.quiet = false := by
  cases o with
  | writeErr e => simp [GAT, zeroGetResponse]
  | hit d f x => simp [GAT, getLocal]
  | miss => simp [GAT, getLocal]
  | readErr e =>
    by_cases he : e = Err.keyNotFound <;>
      simp [GAT, getLocal, zeroGetResponse, he]

/-- C10: `Close` closes only the underlying connection, reporting the
connection's own close result; it does not flush the buffered writer
(no new bytes reach the wire) and leaves every buffer of the handler
untouched. -/
theorem claim_C10_close_does_not_flush (st : HandlerState) :
    (close st).1 = st.connCloseErr ∧
    (close st).2.sent = st.sent ∧
    (close st).2.wbuf = st.wbuf ∧
    (close st).2.istream = st.istream ∧
    (close st).2.pool = st.pool ∧
    (close st).2.connClosed = true := by
  simp [close]

end Rend
